import Mathlib

/-!
Verification of the background task-execution engine
(`Status/archive/background_worker.py`).

The engine is embedded shallowly as a state-transition system:

* `BackgroundTask` mirrors the `BackgroundTask` dataclass (the Python
  `callable`/`args` pair becomes a Lean function over a small value type).
* `WState` is the whole `BackgroundWorker` instance: the registry dict
  (`tasks`, an insertion-ordered association list), the FIFO `task_queue`
  (ids; in Python the queue holds the very record objects that the registry
  owns, so looking the id up in the registry is the same thing), the
  shutdown flag, and a model of the worker pool: `idleWorkers` counts live
  workers currently waiting on the queue, `inFlight` the ids being executed.
  `clock` is a logical time (`time.time()` readings are 1, 2, 3, ...).
* Each Python method becomes a pure function from state to state/result.
  The worker loop body is split at its lock boundaries into `worker_begin`
  (dequeue, discard-if-cancelled, mark Running) and `worker_finish`
  (invoke the work, store result/error, mark Completed/Failed), so that
  interleavings with `cancel_task` and `get_result` are expressible.
* `applyOp` applies one atomic operation; `Reachable` closes the initial
  state under operations.

`get_result` performs no writes in the source, so it is embedded as the
pure per-iteration decision `get_result_step` plus the polling loop
`get_result_run` over an environment-provided schedule of states.
-/

/-- `TaskStatus` enum of the source. -/
inductive TaskStatus where
  | queued
  | running
  | completed
  | failed
  | cancelled
deriving DecidableEq, Repr

/-- `TaskStatus.value` strings of the source enum. -/
def statusValue : TaskStatus → String
  | .queued => "queued"
  | .running => "running"
  | .completed => "completed"
  | .failed => "failed"
  | .cancelled => "cancelled"

/-- Python runtime values handled by the engine (arguments, results).
`pyNone` is Python `None`, the default of the `result` field. -/
inductive Val where
  | pyNone
  | int (n : Int)
  | str (s : String)
deriving DecidableEq, Repr

/-- Python exceptions that appear in the source: `ValueError` (duplicate id),
`KeyError` (unknown id), `RuntimeError` (cancelled / shutdown),
`TimeoutError`, `TypeError` (raising a non-exception), and an arbitrary
exception raised by user work, carried by its message. -/
inductive Exn where
  | valueError (msg : String)
  | keyError (msg : String)
  | runtimeError (msg : String)
  | timeoutError (msg : String)
  | typeError (msg : String)
  | userError (msg : String)
deriving DecidableEq, Repr

/-- `str(e)` on a stored exception, as used by `get_task_info`. -/
def exnStr : Exn → String
  | .valueError m => m
  | .keyError m => m
  | .runtimeError m => m
  | .timeoutError m => m
  | .typeError m => m
  | .userError m => m

/-- The `callable(*args, **kwargs)` pair of the dataclass: a function from
the captured argument list to a normal return or a raised exception. -/
def Callable : Type := List Val → Except Exn Val

/-- The `BackgroundTask` dataclass. `result` defaults to Python `None`;
`error`, `started_at`, `completed_at` default to `None` as well. -/
structure BackgroundTask where
  task_id : String
  callable : Callable
  args : List Val
  status : TaskStatus := .queued
  result : Val := .pyNone
  error : Option Exn := none
  submitted_at : Nat
  started_at : Option Nat := none
  completed_at : Option Nat := none

/-- One `BackgroundWorker` instance. -/
structure WState where
  max_workers : Nat
  tasks : List (String × BackgroundTask)
  task_queue : List String
  inFlight : List String
  idleWorkers : Nat
  shutdown_flag : Bool
  clock : Nat

/-- `BackgroundWorker.__init__`: empty registry and queue, `max_workers`
live workers started and waiting on the queue, flag clear. -/
def BackgroundWorker.init (max_workers : Nat) : WState :=
  { max_workers := max_workers
    tasks := []
    task_queue := []
    inFlight := []
    idleWorkers := max_workers
    shutdown_flag := false
    clock := 1 }

/-- Dictionary lookup `self.tasks[task_id]` on the insertion-ordered
association list. -/
def lookupTask : List (String × BackgroundTask) → String → Option BackgroundTask
  | [], _ => none
  | (k, t) :: rest, id => if k = id then some t else lookupTask rest id

/-- In-place mutation of the record stored under `id` (in Python the queue
and dict share one object, so one write updates every view). -/
def setTask : List (String × BackgroundTask) → String → BackgroundTask →
    List (String × BackgroundTask)
  | [], _, _ => []
  | (k, t) :: rest, id, t' =>
      if k = id then (k, t') :: rest else (k, t) :: setTask rest id t'

/-- `submit_task`: reject a duplicate id with `ValueError` before any
mutation; otherwise create a Queued record, insert it in the registry and
enqueue it, returning the id. -/
def submit_task (s : WState) (task_id : String) (c : Callable) (args : List Val) :
    WState × Except Exn String :=
  if (lookupTask s.tasks task_id).isSome then
    (s, .error (.valueError ("Task " ++ task_id ++ " already exists")))
  else
    let bg : BackgroundTask :=
      { task_id := task_id, callable := c, args := args, submitted_at := s.clock }
    ({ s with
        tasks := s.tasks ++ [(task_id, bg)]
        task_queue := s.task_queue ++ [task_id]
        clock := s.clock + 1 },
     .ok task_id)

/-- `get_status`: `KeyError` if unknown, else the current status. -/
def get_status (s : WState) (task_id : String) : Except Exn TaskStatus :=
  match lookupTask s.tasks task_id with
  | none => .error (.keyError ("Task " ++ task_id ++ " not found"))
  | some t => .ok t.status

/-- `cancel_task`: `KeyError` if unknown; Queued becomes Cancelled with
`true` returned; any other status is an untouched-state `false`. -/
def cancel_task (s : WState) (task_id : String) : WState × Except Exn Bool :=
  match lookupTask s.tasks task_id with
  | none => (s, .error (.keyError ("Task " ++ task_id ++ " not found")))
  | some t =>
      if t.status = .queued then
        ({ s with tasks := setTask s.tasks task_id { t with status := .cancelled } },
         .ok true)
      else
        (s, .ok false)

/-- Outcome of one iteration of the `get_result` polling loop. -/
inductive GetResultOutcome where
  | ret (v : Val)
  | raise (e : Exn)
  | retry
deriving DecidableEq, Repr

/-- One iteration of the `get_result` loop body, in source order:
unknown id raises `KeyError`; Completed returns the stored result; Failed
re-raises the stored error verbatim (Python `raise None` would be a
`TypeError`, kept for totality); Cancelled raises `RuntimeError`; then, if
the shutdown flag is set and the record is non-terminal, `RuntimeError`;
then the elapsed-deadline check raises `TimeoutError`; otherwise the loop
sleeps and retries. -/
def get_result_step (s : WState) (task_id : String) (start now : Nat)
    (timeout : Option Nat) : GetResultOutcome :=
  match lookupTask s.tasks task_id with
  | none => .raise (.keyError ("Task " ++ task_id ++ " not found"))
  | some task =>
    if task.status = .completed then .ret task.result
    else if task.status = .failed then
      match task.error with
      | some e => .raise e
      | none => .raise (.typeError "exceptions must derive from BaseException")
    else if task.status = .cancelled then
      .raise (.runtimeError ("Task " ++ task_id ++ " was cancelled"))
    else if s.shutdown_flag then
      .raise (.runtimeError ("Worker shutdown before task " ++ task_id ++ " completed"))
    else
      match timeout with
      | some tmo =>
          if now - start > tmo then
            .raise (.timeoutError
              ("Task " ++ task_id ++ " did not complete within " ++ toString tmo ++ "s"))
          else .retry
      | none => .retry

/-- The whole `get_result` polling loop: iteration `i` observes the state
`sched i` (the environment mutates the engine between sleeps) at logical
time `start + i`, with `start = 0`; `fuel` bounds the number of
iterations modelled, `none` meaning the loop was still polling. -/
def get_result_run (sched : Nat → WState) (task_id : String)
    (timeout : Option Nat) : Nat → Nat → Option GetResultOutcome
  | _, 0 => none
  | i, fuel + 1 =>
      match get_result_step (sched i) task_id 0 i timeout with
      | .retry => get_result_run sched task_id timeout (i + 1) fuel
      | o => some o

/-- Python truthiness of an optional timestamp (`if task.started_at:`):
`None` and `0` are falsy. -/
def truthyTime : Option Nat → Bool
  | none => false
  | some n => n != 0

/-- The dictionary built by `get_task_info`, with the optional keys as
`Option` fields. -/
structure TaskInfo where
  task_id : String
  status : String
  submitted_at : Nat
  started_at : Option Nat := none
  running_time : Option Nat := none
  completed_at : Option Nat := none
  total_time : Option Nat := none
  error : Option String := none
deriving DecidableEq, Repr

/-- `get_task_info` body. It enters `with self._lock`; `self._lock` is a
non-reentrant `threading.Lock`, so when the calling thread already holds it
(`lockHeld`) the acquisition blocks forever — modelled as `none`.
Otherwise it returns the snapshot dictionary (or `KeyError`). -/
def get_task_info (lockHeld : Bool) (s : WState) (task_id : String) :
    Option (Except Exn TaskInfo) :=
  if lockHeld then none
  else some (match lookupTask s.tasks task_id with
    | none => .error (.keyError ("Task " ++ task_id ++ " not found"))
    | some task =>
      let info0 : TaskInfo :=
        { task_id := task.task_id
          status := statusValue task.status
          submitted_at := task.submitted_at }
      let info1 :=
        if truthyTime task.started_at then
          { info0 with
              started_at := task.started_at
              running_time := some (s.clock - task.started_at.getD 0) }
        else info0
      let info2 :=
        if truthyTime task.completed_at then
          { info1 with
              completed_at := task.completed_at
              total_time := some (task.completed_at.getD 0 - task.submitted_at) }
        else info1
      match task.error with
      | some e => .ok { info2 with error := some (exnStr e) }
      | none => .ok info2)

/-- `list_tasks`: holds `self._lock` for the whole comprehension and calls
`self.get_task_info(tid)` for every key — each such call re-acquires the
same non-reentrant lock, so the call blocks (`none`) as soon as the
registry is non-empty. -/
def list_tasks (s : WState) : Option (List (Except Exn TaskInfo)) :=
  s.tasks.mapM (fun p => get_task_info true s p.1)

/-- `shutdown`: sets the process-wide stop flag (the `wait` join is the
`worker_exit` steps below draining `idleWorkers` to zero). -/
def shutdown_signal (s : WState) : WState :=
  { s with shutdown_flag := true }

/-- First half of one worker-loop iteration: a live idle worker dequeues
the front record; a record already Cancelled while queued is discarded
without running its work; otherwise the record becomes Running with
`started_at` stamped and the worker goes in flight. -/
def worker_begin (s : WState) : WState :=
  if s.idleWorkers = 0 then s
  else
    match s.task_queue with
    | [] => s
    | id :: rest =>
      match lookupTask s.tasks id with
      | none => { s with task_queue := rest }
      | some t =>
        if t.status = .cancelled then
          { s with task_queue := rest }
        else
          { s with
              task_queue := rest
              tasks := setTask s.tasks id
                { t with status := .running, started_at := some s.clock }
              inFlight := s.inFlight ++ [id]
              idleWorkers := s.idleWorkers - 1
              clock := s.clock + 1 }

/-- Second half of one worker-loop iteration: the in-flight worker invokes
`task.callable(*task.args, **task.kwargs)` with no lock held; a normal
return stores the value and Completed, any raised exception is caught at
this boundary and stored with Failed — the worker survives either way and
returns to the idle pool. -/
def worker_finish (s : WState) (id : String) : WState :=
  if id ∈ s.inFlight then
    match lookupTask s.tasks id with
    | none => s
    | some t =>
      match t.callable t.args with
      | .ok v =>
          { s with
              tasks := setTask s.tasks id
                { t with result := v, status := .completed, completed_at := some s.clock }
              inFlight := s.inFlight.erase id
              idleWorkers := s.idleWorkers + 1
              clock := s.clock + 1 }
      | .error e =>
          { s with
              tasks := setTask s.tasks id
                { t with error := some e, status := .failed, completed_at := some s.clock }
              inFlight := s.inFlight.erase id
              idleWorkers := s.idleWorkers + 1
              clock := s.clock + 1 }
  else s

/-- A live idle worker observes the stop flag at the top of its loop and
exits. -/
def worker_exit (s : WState) : WState :=
  if s.shutdown_flag ∧ 0 < s.idleWorkers then
    { s with idleWorkers := s.idleWorkers - 1 }
  else s

/-- The atomic operations of the system: the three mutating API calls, the
two halves of a worker iteration, a worker exiting after the flag, and
the shutdown signal itself. -/
inductive Op where
  | submit (id : String) (c : Callable) (args : List Val)
  | cancel (id : String)
  | workerBegin
  | workerFinish (id : String)
  | workerExit
  | shutdownSignal

/-- Effect of one atomic operation on the engine state. -/
def applyOp : Op → WState → WState
  | .submit id c args, s => (submit_task s id c args).1
  | .cancel id, s => (cancel_task s id).1
  | .workerBegin, s => worker_begin s
  | .workerFinish id, s => worker_finish s id
  | .workerExit, s => worker_exit s
  | .shutdownSignal, s => shutdown_signal s

/-- States reachable from a fresh `BackgroundWorker(n)` by any
interleaving of operations. -/
inductive Reachable : WState → Prop where
  | init (n : Nat) : Reachable (BackgroundWorker.init n)
  | step (s : WState) (op : Op) : Reachable s → Reachable (applyOp op s)

/-- Status of a task as seen through the registry. -/
def statusOf (s : WState) (id : String) : Option TaskStatus :=
  (lookupTask s.tasks id).map (fun t => t.status)

/-- `shutdown(wait=True)` has returned: flag set and every worker has
exited (none idle, none mid-execution). -/
def ShutdownComplete (s : WState) : Prop :=
  s.shutdown_flag = true ∧ s.idleWorkers = 0 ∧ s.inFlight = []

/-- The module-level `_global_worker` cell read/written by
`get_global_worker`: first call constructs `BackgroundWorker()` (default
`max_workers = 3`) and stores it; later calls return the stored instance. -/
def get_global_worker (g : Option WState) : Option WState × WState :=
  match g with
  | none => (some (BackgroundWorker.init 3), BackgroundWorker.init 3)
  | some w => (some w, w)

/-- `delegate_to_background`: fetch the global worker and submit to it (in
Python the submission mutates the very instance the global cell holds). -/
def delegate_to_background (g : Option WState) (task_id : String) (c : Callable)
    (args : List Val) : Option WState × Except Exn String :=
  let p := get_global_worker g
  let q := submit_task p.2 task_id c args
  (some q.1, q.2)

/-- The per-record state machine of the spec:
Queued to Running to Completed/Failed, Queued to Cancelled. -/
def legalEdge : TaskStatus → TaskStatus → Bool
  | .queued, .running => true
  | .queued, .cancelled => true
  | .running, .completed => true
  | .running, .failed => true
  | _, _ => false

/-! ### Concrete work bodies and states used to exercise the theorems -/

/-- A trivial work body (returns Python `None`). -/
def dummyWork : Callable := fun _ => .ok .pyNone

/-- The `add` work of the spec example: `add(5, 10)` returns `15`. -/
def addWork : Callable := fun args =>
  match args with
  | [.int a, .int b] => .ok (.int (a + b))
  | _ => .error (.typeError "unsupported operand")

/-- A work body that raises `Exception("Intentional test error")`. -/
def failingWork : Callable := fun _ => .error (.userError "Intentional test error")

/-- One task `"t"` submitted to a one-worker engine. -/
def exSubmitted : WState :=
  applyOp (.submit "t" dummyWork []) (BackgroundWorker.init 1)

/-- The record of `"t"` right after submission. -/
def exQueuedTask : BackgroundTask :=
  { task_id := "t", callable := dummyWork, args := [], submitted_at := 1 }

/-- The same record after a successful cancellation. -/
def exCancelledTask : BackgroundTask :=
  { exQueuedTask with status := .cancelled }

/-- `"sum"` submitted as `submit("sum", add, 5, 10)` and picked up by the
worker (now Running). -/
def exSumRunning : WState :=
  applyOp .workerBegin
    (applyOp (.submit "sum" addWork [.int 5, .int 10]) (BackgroundWorker.init 1))

/-- `"boom"` submitted with the raising work and picked up by the worker. -/
def exBoomRunning : WState :=
  applyOp .workerBegin
    (applyOp (.submit "boom" failingWork []) (BackgroundWorker.init 1))

/-- A one-worker engine whose only worker has exited after the shutdown
signal, with `"t"` still Queued: `shutdown(wait=True)` has returned. -/
def exDead : WState :=
  applyOp .workerExit
    (applyOp .shutdownSignal (applyOp (.submit "t" dummyWork []) (BackgroundWorker.init 1)))

/-- A dead engine (as `exDead`) to which `"late"` was submitted after
shutdown completed. -/
def exDeadLate : WState :=
  applyOp (.submit "late" dummyWork []) exDead

/-- The record of `"sum"` while Running inside `exSumRunning`. -/
def exSumRunningTask : BackgroundTask :=
  { task_id := "sum", callable := addWork, args := [.int 5, .int 10],
    status := .running, submitted_at := 1, started_at := some 2 }

/-- The record of `"boom"` while Running inside `exBoomRunning`. -/
def exBoomRunningTask : BackgroundTask :=
  { task_id := "boom", callable := failingWork, args := [],
    status := .running, submitted_at := 1, started_at := some 2 }

/-- A queued record `"q"` used to exercise cancellation. -/
def exTaskQ : BackgroundTask :=
  { task_id := "q", callable := dummyWork, args := [], submitted_at := 1 }

/-- A running record `"r"` used to exercise cancellation. -/
def exTaskR : BackgroundTask :=
  { task_id := "r", callable := dummyWork, args := [], status := .running,
    submitted_at := 1, started_at := some 2 }

/-- An engine holding a queued `"q"` and a running `"r"`. -/
def exCancelState : WState :=
  { max_workers := 2, tasks := [("q", exTaskQ), ("r", exTaskR)],
    task_queue := ["q"], inFlight := ["r"], idleWorkers := 1,
    shutdown_flag := false, clock := 3 }

/-- `exCancelState` after `cancel_task "q"`: the cancelled record is still
physically at the front of the queue. -/
def exCancelledQueueState : WState := (cancel_task exCancelState "q").1

/-! ### Association-list lemmas -/

theorem lookupTask_append_of_some {l : List (String × BackgroundTask)} {id : String}
    {t : BackgroundTask} (l' : List (String × BackgroundTask))
    (h : lookupTask l id = some t) : lookupTask (l ++ l') id = some t := by
  induction l with
  | nil => simp [lookupTask] at h
  | cons p rest ih =>
      obtain ⟨k, u⟩ := p
      by_cases hk : k = id
      · simpa [lookupTask, hk] using h
      · simp only [lookupTask, hk, if_false] at h ⊢
        exact ih h

theorem lookupTask_append_of_none {l : List (String × BackgroundTask)} {id : String}
    (l' : List (String × BackgroundTask))
    (h : lookupTask l id = none) : lookupTask (l ++ l') id = lookupTask l' id := by
  induction l with
  | nil => simp [lookupTask]
  | cons p rest ih =>
      obtain ⟨k, u⟩ := p
      by_cases hk : k = id
      · simp [lookupTask, hk] at h
      · simp only [lookupTask, hk, if_false] at h ⊢
        exact ih h

theorem lookupTask_setTask_self {l : List (String × BackgroundTask)} {id : String}
    {t : BackgroundTask} (t' : BackgroundTask)
    (h : lookupTask l id = some t) : lookupTask (setTask l id t') id = some t' := by
  induction l with
  | nil => simp [lookupTask] at h
  | cons p rest ih =>
      obtain ⟨k, u⟩ := p
      by_cases hk : k = id
      · simp [lookupTask, setTask, hk]
      · simp only [lookupTask, setTask, hk, if_false] at h ⊢
        exact ih h

theorem lookupTask_setTask_ne {l : List (String × BackgroundTask)} {id id' : String}
    (t' : BackgroundTask) (hne : id' ≠ id) :
    lookupTask (setTask l id t') id' = lookupTask l id' := by
  induction l with
  | nil => simp [lookupTask, setTask]
  | cons p rest ih =>
      obtain ⟨k, u⟩ := p
      by_cases hk : k = id
      · subst hk
        have : ¬ (k = id') := fun h => hne h.symm
        simp [lookupTask, setTask, this]
      · by_cases hk' : k = id'
        · simp [lookupTask, setTask, hk, hk', hne]
        · simp only [lookupTask, setTask, hk, hk', if_false]
          exact ih

theorem keys_ne_of_lookupTask_none {l : List (String × BackgroundTask)} {id : String}
    (h : lookupTask l id = none) : ∀ p ∈ l, p.1 ≠ id := by
  induction l with
  | nil => intro p hp; simp at hp
  | cons q rest ih =>
      obtain ⟨k, u⟩ := q
      by_cases hk : k = id
      · simp [lookupTask, hk] at h
      · simp only [lookupTask, hk, if_false] at h
        intro p hp
        rcases List.mem_cons.mp hp with h1 | h2
        · subst h1; exact hk
        · exact ih h p h2

/-! ### The system invariant

Records referenced from the queue are registered and still Queued or
Cancelled (nothing else touches a queued record); records being executed
are registered and Running; the queue and the in-flight set never hold
duplicates and never overlap. -/

structure SysInv (s : WState) : Prop where
  queue_ok : ∀ id ∈ s.task_queue, ∃ t, lookupTask s.tasks id = some t ∧
      (t.status = .queued ∨ t.status = .cancelled)
  flight_ok : ∀ id ∈ s.inFlight, ∃ t, lookupTask s.tasks id = some t ∧ t.status = .running
  queue_nodup : s.task_queue.Nodup
  flight_nodup : s.inFlight.Nodup
  disj : ∀ id ∈ s.task_queue, id ∉ s.inFlight

theorem sysInv_init (n : Nat) : SysInv (BackgroundWorker.init n) := by
  refine ⟨?_, ?_, ?_, ?_, ?_⟩ <;> simp [BackgroundWorker.init]

theorem sysInv_submit (s : WState) (h : SysInv s) (id : String) (c : Callable)
    (args : List Val) : SysInv (submit_task s id c args).1 := by
  cases hl : lookupTask s.tasks id with
  | some t => simpa [submit_task, hl] using h
  | none =>
    have hnotq : id ∉ s.task_queue := fun hq => by
      obtain ⟨t, ht, _⟩ := h.queue_ok id hq
      rw [hl] at ht; exact Option.noConfusion ht
    have hnotf : id ∉ s.inFlight := fun hf => by
      obtain ⟨t, ht, _⟩ := h.flight_ok id hf
      rw [hl] at ht; exact Option.noConfusion ht
    simp only [submit_task, hl, Option.isSome_none, Bool.false_eq_true, if_false]
    refine ⟨?_, ?_, ?_, ?_, ?_⟩
    · intro j hj
      simp only at hj
      rcases List.mem_append.mp hj with hj | hj
      · obtain ⟨t, ht, hst⟩ := h.queue_ok j hj
        exact ⟨t, lookupTask_append_of_some _ ht, hst⟩
      · have hji : j = id := List.mem_singleton.mp hj
        subst hji
        exact ⟨{ task_id := j, callable := c, args := args, submitted_at := s.clock },
               by rw [lookupTask_append_of_none _ hl]; simp [lookupTask],
               Or.inl rfl⟩
    · intro j hj
      simp only at hj
      obtain ⟨t, ht, hst⟩ := h.flight_ok j hj
      exact ⟨t, lookupTask_append_of_some _ ht, hst⟩
    · simp only
      exact List.nodup_append.mpr
        ⟨h.queue_nodup, List.nodup_singleton id,
         fun a ha hb => hnotq ((List.mem_singleton.mp hb) ▸ ha)⟩
    · exact h.flight_nodup
    · intro j hj
      simp only at hj ⊢
      rcases List.mem_append.mp hj with hj | hj
      · exact h.disj j hj
      · exact (List.mem_singleton.mp hj) ▸ hnotf

theorem sysInv_cancel (s : WState) (h : SysInv s) (id : String) :
    SysInv (cancel_task s id).1 := by
  cases hl : lookupTask s.tasks id with
  | none => simpa [cancel_task, hl] using h
  | some t =>
    by_cases hq : t.status = .queued
    · simp only [cancel_task, hl, hq, if_true]
      have hnotf : id ∉ s.inFlight := fun hf => by
        obtain ⟨t', ht', hst'⟩ := h.flight_ok id hf
        rw [hl] at ht'
        cases ht'
        rw [hq] at hst'
        exact TaskStatus.noConfusion hst'
      refine ⟨?_, ?_, h.queue_nodup, h.flight_nodup, h.disj⟩
      · intro j hj
        by_cases hji : j = id
        · subst hji
          exact ⟨_, lookupTask_setTask_self _ hl, Or.inr rfl⟩
        · obtain ⟨tj, htj, hstj⟩ := h.queue_ok j hj
          exact ⟨tj, by rw [lookupTask_setTask_ne _ hji]; exact htj, hstj⟩
      · intro j hj
        have hji : j ≠ id := fun he => hnotf (he ▸ hj)
        obtain ⟨tj, htj, hstj⟩ := h.flight_ok j hj
        exact ⟨tj, by rw [lookupTask_setTask_ne _ hji]; exact htj, hstj⟩
    · simpa [cancel_task, hl, hq] using h

theorem sysInv_worker_begin (s : WState) (h : SysInv s) : SysInv (worker_begin s) := by
  by_cases hidle : s.idleWorkers = 0
  · simpa [worker_begin, hidle] using h
  cases hqq : s.task_queue with
  | nil => simpa [worker_begin, hidle, hqq] using h
  | cons id rest =>
    have hidq : id ∈ s.task_queue := by rw [hqq]; exact List.mem_cons_self id rest
    obtain ⟨t0, ht0, hst0⟩ := h.queue_ok id hidq
    have hrest_nodup : rest.Nodup := by
      have := h.queue_nodup; rw [hqq] at this
      exact (List.nodup_cons.mp this).2
    have hid_rest : id ∉ rest := by
      have := h.queue_nodup; rw [hqq] at this
      exact (List.nodup_cons.mp this).1
    have hrest_sub : ∀ j ∈ rest, j ∈ s.task_queue := fun j hj => by
      rw [hqq]; exact List.mem_cons_of_mem id hj
    by_cases hc : t0.status = .cancelled
    · have : worker_begin s = { s with task_queue := rest } := by
        simp [worker_begin, hidle, hqq, ht0, hc]
      rw [this]
      refine ⟨?_, ?_, hrest_nodup, h.flight_nodup, ?_⟩
      · intro j hj; exact h.queue_ok j (hrest_sub j hj)
      · intro j hj; exact h.flight_ok j hj
      · intro j hj; exact h.disj j (hrest_sub j hj)
    · have hnotf : id ∉ s.inFlight := h.disj id hidq
      have : worker_begin s =
          { s with
              task_queue := rest
              tasks := setTask s.tasks id
                { t0 with status := .running, started_at := some s.clock }
              inFlight := s.inFlight ++ [id]
              idleWorkers := s.idleWorkers - 1
              clock := s.clock + 1 } := by
        simp [worker_begin, hidle, hqq, ht0, hc]
      rw [this]
      refine ⟨?_, ?_, hrest_nodup, ?_, ?_⟩
      · intro j hj
        simp only at hj
        have hji : j ≠ id := fun he => hid_rest (he ▸ hj)
        obtain ⟨tj, htj, hstj⟩ := h.queue_ok j (hrest_sub j hj)
        exact ⟨tj, by rw [lookupTask_setTask_ne _ hji]; exact htj, hstj⟩
      · intro j hj
        simp only at hj
        rcases List.mem_append.mp hj with hj | hj
        · have hji : j ≠ id := fun he => hnotf (he ▸ hj)
          obtain ⟨tj, htj, hstj⟩ := h.flight_ok j hj
          exact ⟨tj, by rw [lookupTask_setTask_ne _ hji]; exact htj, hstj⟩
        · have hji : j = id := List.mem_singleton.mp hj
          subst hji
          exact ⟨_, lookupTask_setTask_self _ ht0, rfl⟩
      · simp only
        exact List.nodup_append.mpr
          ⟨h.flight_nodup, List.nodup_singleton id,
           fun a ha hb => hnotf ((List.mem_singleton.mp hb) ▸ ha)⟩
      · intro j hj
        simp only at hj ⊢
        intro hmem
        rcases List.mem_append.mp hmem with hm | hm
        · exact h.disj j (hrest_sub j hj) hm
        · exact hid_rest ((List.mem_singleton.mp hm) ▸ hj)

theorem sysInv_worker_finish (s : WState) (h : SysInv s) (id : String) :
    SysInv (worker_finish s id) := by
  by_cases hf : id ∈ s.inFlight
  · cases hl : lookupTask s.tasks id with
    | none => simpa [worker_finish, hf, hl] using h
    | some t =>
      have hqne : ∀ j ∈ s.task_queue, j ≠ id := fun j hj he =>
        h.disj j hj (he ▸ hf)
      have main : ∀ t' : BackgroundTask,
          SysInv { s with
                  tasks := setTask s.tasks id t'
                  inFlight := s.inFlight.erase id
                  idleWorkers := s.idleWorkers + 1
                  clock := s.clock + 1 } := by
        intro t'
        refine ⟨?_, ?_, h.queue_nodup, ?_, ?_⟩
        · intro j hj
          simp only at hj ⊢
          obtain ⟨tj, htj, hstj⟩ := h.queue_ok j hj
          exact ⟨tj, by rw [lookupTask_setTask_ne _ (hqne j hj)]; exact htj, hstj⟩
        · intro j hj
          simp only at hj ⊢
          have hji : j ≠ id ∧ j ∈ s.inFlight :=
            (List.Nodup.mem_erase_iff h.flight_nodup).mp hj
          obtain ⟨tj, htj, hstj⟩ := h.flight_ok j hji.2
          exact ⟨tj, by rw [lookupTask_setTask_ne _ hji.1]; exact htj, hstj⟩
        · exact List.Nodup.erase id h.flight_nodup
        · intro j hj hmem
          simp only at hj hmem
          exact h.disj j hj (List.mem_of_mem_erase hmem)
      cases hcall : t.callable t.args with
      | ok v =>
          have : worker_finish s id =
              { s with
                  tasks := setTask s.tasks id
                    { t with result := v, status := .completed,
                             completed_at := some s.clock }
                  inFlight := s.inFlight.erase id
                  idleWorkers := s.idleWorkers + 1
                  clock := s.clock + 1 } := by
            simp [worker_finish, hf, hl, hcall]
          rw [this]; exact main _
      | error e =>
          have : worker_finish s id =
              { s with
                  tasks := setTask s.tasks id
                    { t with error := some e, status := .failed,
                             completed_at := some s.clock }
                  inFlight := s.inFlight.erase id
                  idleWorkers := s.idleWorkers + 1
                  clock := s.clock + 1 } := by
            simp [worker_finish, hf, hl, hcall]
          rw [this]; exact main _
  · simpa [worker_finish, hf] using h

theorem sysInv_applyOp (op : Op) (s : WState) (h : SysInv s) : SysInv (applyOp op s) := by
  cases op with
  | submit id c args => exact sysInv_submit s h id c args
  | cancel id => exact sysInv_cancel s h id
  | workerBegin => exact sysInv_worker_begin s h
  | workerFinish id => exact sysInv_worker_finish s h id
  | workerExit =>
      by_cases hc : s.shutdown_flag = true ∧ 0 < s.idleWorkers
      · have : applyOp .workerExit s = { s with idleWorkers := s.idleWorkers - 1 } := by
          simp [applyOp, worker_exit, hc]
        rw [this]
        exact ⟨h.queue_ok, h.flight_ok, h.queue_nodup, h.flight_nodup, h.disj⟩
      · simpa [applyOp, worker_exit, hc] using h
  | shutdownSignal =>
      exact ⟨h.queue_ok, h.flight_ok, h.queue_nodup, h.flight_nodup, h.disj⟩

theorem sysInv_reachable {s : WState} (h : Reachable s) : SysInv s := by
  induction h with
  | init n => exact sysInv_init n
  | step s op _ ih => exact sysInv_applyOp op s ih

/-! ### Effect of each operation on a registered record -/

theorem lookupTask_submit (s : WState) (id' : String) (c : Callable) (args : List Val)
    {id : String} {t : BackgroundTask} (ht : lookupTask s.tasks id = some t) :
    lookupTask (submit_task s id' c args).1.tasks id = some t := by
  cases hl : lookupTask s.tasks id' with
  | some u => simpa [submit_task, hl] using ht
  | none =>
      simp only [submit_task, hl, Option.isSome_none, Bool.false_eq_true, if_false]
      exact lookupTask_append_of_some _ ht

theorem tasks_worker_exit (s : WState) : (worker_exit s).tasks = s.tasks := by
  by_cases hc : s.shutdown_flag = true ∧ 0 < s.idleWorkers
  · simp [worker_exit, hc]
  · simp [worker_exit, hc]

/-! ### C1: the per-record state machine -/

/-- C1: every status change performed by `submit_task`, `cancel_task` or the
worker loop (or shutdown/worker-exit) on a registered record moves along an
edge of the state machine Queued to Running to Completed/Failed, or
Queued to Cancelled; in particular a terminal status is never changed and
Completed/Failed are only ever entered from Running. -/
theorem status_changes_follow_state_machine (s : WState) (op : Op) (id : String)
    (t t' : BackgroundTask)
    (hr : Reachable s)
    (ht : lookupTask s.tasks id = some t)
    (ht' : lookupTask (applyOp op s).tasks id = some t')
    (hne : t.status ≠ t'.status) :
    legalEdge t.status t'.status = true := by
  have hinv := sysInv_reachable hr
  cases op with
  | submit id' c args =>
      have h2 := lookupTask_submit s id' c args ht
      simp only [applyOp] at ht'
      rw [h2] at ht'
      obtain rfl : t = t' := Option.some.inj ht'
      exact absurd rfl hne
  | cancel id' =>
      by_cases hji : id = id'
      · subst hji
        cases hl : lookupTask s.tasks id with
        | none => rw [ht] at hl; exact Option.noConfusion hl
        | some u =>
          obtain rfl : t = u := by rw [ht] at hl; exact Option.some.inj hl
          by_cases hq : t.status = .queued
          · have h2 : lookupTask (applyOp (.cancel id) s).tasks id =
                some { t with status := .cancelled } := by
              simp only [applyOp, cancel_task, hl, hq, if_true]
              exact lookupTask_setTask_self _ hl
            rw [h2] at ht'
            have h3 := Option.some.inj ht'
            subst h3
            rw [hq]
            rfl
          · have h2 : lookupTask (applyOp (.cancel id) s).tasks id = some t := by
              simp [applyOp, cancel_task, hl, hq]
            rw [h2] at ht'
            obtain rfl : t = t' := Option.some.inj ht'
            exact absurd rfl hne
      · have h2 : lookupTask (applyOp (.cancel id') s).tasks id =
            lookupTask s.tasks id := by
          cases hl : lookupTask s.tasks id' with
          | none => simp [applyOp, cancel_task, hl]
          | some u =>
            by_cases hq : u.status = .queued
            · simp only [applyOp, cancel_task, hl, hq, if_true]
              exact lookupTask_setTask_ne _ hji
            · simp [applyOp, cancel_task, hl, hq]
        rw [h2, ht] at ht'
        obtain rfl : t = t' := Option.some.inj ht'
        exact absurd rfl hne
  | workerBegin =>
      by_cases hidle : s.idleWorkers = 0
      · simp only [applyOp, worker_begin, hidle, if_true] at ht'
        rw [ht] at ht'
        obtain rfl : t = t' := Option.some.inj ht'
        exact absurd rfl hne
      cases hqq : s.task_queue with
      | nil =>
          simp only [applyOp, worker_begin, hidle, if_false, hqq] at ht'
          rw [ht] at ht'
          obtain rfl : t = t' := Option.some.inj ht'
          exact absurd rfl hne
      | cons h0 rest =>
          have hmem : h0 ∈ s.task_queue := by rw [hqq]; exact List.mem_cons_self h0 rest
          cases hl : lookupTask s.tasks h0 with
          | none =>
              simp only [applyOp, worker_begin, hidle, if_false, hqq, hl] at ht'
              rw [ht] at ht'
              obtain rfl : t = t' := Option.some.inj ht'
              exact absurd rfl hne
          | some u =>
              by_cases hc : u.status = .cancelled
              · simp only [applyOp, worker_begin, hidle, if_false, hqq, hl, hc,
                  if_true] at ht'
                rw [ht] at ht'
                obtain rfl : t = t' := Option.some.inj ht'
                exact absurd rfl hne
              · by_cases hji : id = h0
                · subst hji
                  obtain rfl : t = u := by rw [ht] at hl; exact Option.some.inj hl
                  have hq : t.status = .queued := by
                    obtain ⟨w, hw, hws⟩ := hinv.queue_ok id hmem
                    obtain rfl : t = w := by rw [ht] at hw; exact Option.some.inj hw
                    rcases hws with h | h
                    · exact h
                    · exact absurd h hc
                  have h2 : lookupTask (applyOp .workerBegin s).tasks id =
                      some { t with status := .running, started_at := some s.clock } := by
                    simp only [applyOp, worker_begin, hidle, if_false, hqq, hl, hc]
                    exact lookupTask_setTask_self _ hl
                  rw [h2] at ht'
                  have h3 := Option.some.inj ht'
                  subst h3
                  rw [hq]
                  rfl
                · have h2 : lookupTask (applyOp .workerBegin s).tasks id =
                      lookupTask s.tasks id := by
                    simp only [applyOp, worker_begin, hidle, if_false, hqq, hl, hc]
                    exact lookupTask_setTask_ne _ hji
                  rw [h2, ht] at ht'
                  obtain rfl : t = t' := Option.some.inj ht'
                  exact absurd rfl hne
  | workerFinish fid =>
      by_cases hf : fid ∈ s.inFlight
      · cases hl : lookupTask s.tasks fid with
        | none =>
            simp only [applyOp, worker_finish, hf, if_true, hl] at ht'
            rw [ht] at ht'
            obtain rfl : t = t' := Option.some.inj ht'
            exact absurd rfl hne
        | some u =>
            have hrun : u.status = .running := by
              obtain ⟨w, hw, hws⟩ := hinv.flight_ok fid hf
              obtain rfl : u = w := by rw [hl] at hw; exact Option.some.inj hw
              exact hws
            cases hcall : u.callable u.args with
            | ok v =>
                by_cases hji : id = fid
                · subst hji
                  obtain rfl : t = u := by rw [ht] at hl; exact Option.some.inj hl
                  have h2 : lookupTask (applyOp (.workerFinish id) s).tasks id =
                      some { t with result := v, status := .completed,
                                    completed_at := some s.clock } := by
                    simp only [applyOp, worker_finish, hf, if_true, hl, hcall]
                    exact lookupTask_setTask_self _ hl
                  rw [h2] at ht'
                  have h3 := Option.some.inj ht'
                  subst h3
                  rw [hrun]
                  rfl
                · have h2 : lookupTask (applyOp (.workerFinish fid) s).tasks id =
                      lookupTask s.tasks id := by
                    simp only [applyOp, worker_finish, hf, if_true, hl, hcall]
                    exact lookupTask_setTask_ne _ hji
                  rw [h2, ht] at ht'
                  obtain rfl : t = t' := Option.some.inj ht'
                  exact absurd rfl hne
            | error e =>
                by_cases hji : id = fid
                · subst hji
                  obtain rfl : t = u := by rw [ht] at hl; exact Option.some.inj hl
                  have h2 : lookupTask (applyOp (.workerFinish id) s).tasks id =
                      some { t with error := some e, status := .failed,
                                    completed_at := some s.clock } := by
                    simp only [applyOp, worker_finish, hf, if_true, hl, hcall]
                    exact lookupTask_setTask_self _ hl
                  rw [h2] at ht'
                  have h3 := Option.some.inj ht'
                  subst h3
                  rw [hrun]
                  rfl
                · have h2 : lookupTask (applyOp (.workerFinish fid) s).tasks id =
                      lookupTask s.tasks id := by
                    simp only [applyOp, worker_finish, hf, if_true, hl, hcall]
                    exact lookupTask_setTask_ne _ hji
                  rw [h2, ht] at ht'
                  obtain rfl : t = t' := Option.some.inj ht'
                  exact absurd rfl hne
      · simp only [applyOp, worker_finish, hf, if_false] at ht'
        rw [ht] at ht'
        obtain rfl : t = t' := Option.some.inj ht'
        exact absurd rfl hne
  | workerExit =>
      simp only [applyOp] at ht'
      rw [tasks_worker_exit, ht] at ht'
      obtain rfl : t = t' := Option.some.inj ht'
      exact absurd rfl hne
  | shutdownSignal =>
      simp only [applyOp, shutdown_signal] at ht'
      rw [ht] at ht'
      obtain rfl : t = t' := Option.some.inj ht'
      exact absurd rfl hne

/-- Witness for C1: in the reachable one-task state, cancelling the queued
task `"t"` changes its status along the legal edge Queued to Cancelled. -/
theorem status_changes_follow_state_machine_witness :
    lookupTask exSubmitted.tasks "t" = some exQueuedTask ∧
    lookupTask (applyOp (Op.cancel "t") exSubmitted).tasks "t" = some exCancelledTask ∧
    legalEdge exQueuedTask.status exCancelledTask.status = true :=
  ⟨rfl, rfl,
   status_changes_follow_state_machine exSubmitted (Op.cancel "t") "t"
     exQueuedTask exCancelledTask
     (Reachable.step _ _ (Reachable.init 1)) rfl rfl (by decide)⟩

/-! ### C2, C3: outcome of executing a task -/

/-- C2: when an in-flight task's work returns normally, the worker stores
the returned value on the record, sets status Completed, and every
subsequent `get_result` iteration for that id returns exactly that value. -/
theorem worker_completion_stores_result (s : WState) (id : String)
    (t : BackgroundTask) (v : Val)
    (hf : id ∈ s.inFlight)
    (ht : lookupTask s.tasks id = some t)
    (hcall : t.callable t.args = .ok v) :
    ∃ t', lookupTask (worker_finish s id).tasks id = some t' ∧
      t'.status = .completed ∧ t'.result = v ∧
      ∀ start now timeout,
        get_result_step (worker_finish s id) id start now timeout = .ret v := by
  have hlook : lookupTask (worker_finish s id).tasks id =
      some { t with result := v, status := .completed,
                    completed_at := some s.clock } := by
    simp only [worker_finish, hf, if_true, ht, hcall]
    exact lookupTask_setTask_self _ ht
  refine ⟨_, hlook, rfl, rfl, ?_⟩
  intro start now timeout
  simp [get_result_step, hlook]

/-- Witness for C2: `submit("sum", add, 5, 10)` executed by the worker
completes with `15`, and `get_result("sum")` returns `15`. -/
theorem worker_completion_stores_result_witness :
    "sum" ∈ exSumRunning.inFlight ∧
    ∃ t', lookupTask (worker_finish exSumRunning "sum").tasks "sum" = some t' ∧
      t'.status = .completed ∧ t'.result = .int 15 ∧
      ∀ start now timeout,
        get_result_step (worker_finish exSumRunning "sum") "sum" start now timeout =
          .ret (.int 15) :=
  ⟨by decide,
   worker_completion_stores_result exSumRunning "sum" exSumRunningTask (.int 15)
     (by decide) rfl rfl⟩

/-- C3: when an in-flight task's work raises, the failure is caught at the
worker boundary: the record gets status Failed with the raised error stored
verbatim, the worker returns to the idle pool (it is not killed), and every
subsequent `get_result` iteration re-raises exactly that error. -/
theorem worker_failure_caught_and_reraised (s : WState) (id : String)
    (t : BackgroundTask) (e : Exn)
    (hf : id ∈ s.inFlight)
    (ht : lookupTask s.tasks id = some t)
    (hcall : t.callable t.args = .error e) :
    ∃ t', lookupTask (worker_finish s id).tasks id = some t' ∧
      t'.status = .failed ∧ t'.error = some e ∧
      (worker_finish s id).idleWorkers = s.idleWorkers + 1 ∧
      ∀ start now timeout,
        get_result_step (worker_finish s id) id start now timeout = .raise e := by
  have hlook : lookupTask (worker_finish s id).tasks id =
      some { t with error := some e, status := .failed,
                    completed_at := some s.clock } := by
    simp only [worker_finish, hf, if_true, ht, hcall]
    exact lookupTask_setTask_self _ ht
  have hidle : (worker_finish s id).idleWorkers = s.idleWorkers + 1 := by
    simp [worker_finish, hf, ht, hcall]
  refine ⟨_, hlook, rfl, rfl, hidle, ?_⟩
  intro start now timeout
  simp [get_result_step, hlook]

/-- Witness for C3: a work body raising `"Intentional test error"` yields a
Failed record whose caller receives exactly that error text. -/
theorem worker_failure_caught_and_reraised_witness :
    "boom" ∈ exBoomRunning.inFlight ∧
    ∃ t', lookupTask (worker_finish exBoomRunning "boom").tasks "boom" = some t' ∧
      t'.status = .failed ∧ t'.error = some (.userError "Intentional test error") ∧
      (worker_finish exBoomRunning "boom").idleWorkers =
        exBoomRunning.idleWorkers + 1 ∧
      ∀ start now timeout,
        get_result_step (worker_finish exBoomRunning "boom") "boom" start now timeout =
          .raise (.userError "Intentional test error") :=
  ⟨by decide,
   worker_failure_caught_and_reraised exBoomRunning "boom" exBoomRunningTask
     (.userError "Intentional test error") (by decide) rfl rfl⟩

/-! ### C4: duplicate submission -/

/-- C4: submitting an id already present always fails with the DuplicateId
error (`ValueError`) and returns the state bit-for-bit unchanged: the
existing record's status, result, error and timestamps, the registry and
the queue are exactly as before the call. -/
theorem duplicate_submit_rejected_unchanged (s : WState) (id : String)
    (c : Callable) (args : List Val) (t : BackgroundTask)
    (ht : lookupTask s.tasks id = some t) :
    submit_task s id c args =
      (s, .error (.valueError ("Task " ++ id ++ " already exists"))) := by
  simp [submit_task, ht]

/-- Witness for C4: resubmitting `"t"` to `exSubmitted` fails and leaves
the state identical. -/
theorem duplicate_submit_rejected_unchanged_witness :
    submit_task exSubmitted "t" dummyWork [] =
      (exSubmitted, .error (.valueError ("Task " ++ "t" ++ " already exists"))) :=
  duplicate_submit_rejected_unchanged exSubmitted "t" dummyWork [] exQueuedTask rfl

/-! ### C5: cancellation -/

/-- C5: `cancel_task` fails `KeyError` for an unknown id; for a known id it
returns true iff the status is Queued at the call, in which case the status
becomes Cancelled; on any other status it returns false leaving the state
bit-for-bit unchanged and raising nothing; and a worker that later dequeues
a cancelled record discards it (pops the queue) without invoking its work
or changing anything else. -/
theorem cancel_task_spec (s : WState) (id : String) :
    (lookupTask s.tasks id = none →
      cancel_task s id = (s, .error (.keyError ("Task " ++ id ++ " not found")))) ∧
    (∀ t, lookupTask s.tasks id = some t →
      ((cancel_task s id).2 = .ok true ↔ t.status = .queued)) ∧
    (∀ t, lookupTask s.tasks id = some t → t.status = .queued →
      lookupTask (cancel_task s id).1.tasks id = some { t with status := .cancelled }) ∧
    (∀ t, lookupTask s.tasks id = some t → t.status ≠ .queued →
      cancel_task s id = (s, .ok false)) ∧
    (∀ t rest, s.task_queue = id :: rest → lookupTask s.tasks id = some t →
      t.status = .cancelled → s.idleWorkers ≠ 0 →
      worker_begin s = { s with task_queue := rest }) := by
  refine ⟨?_, ?_, ?_, ?_, ?_⟩
  · intro hl
    simp [cancel_task, hl]
  · intro t ht
    by_cases hq : t.status = .queued
    · simp [cancel_task, ht, hq]
    · simp [cancel_task, ht, hq]
  · intro t ht hq
    simp only [cancel_task, ht, hq, if_true]
    exact lookupTask_setTask_self _ ht
  · intro t ht hq
    simp [cancel_task, ht, hq]
  · intro t rest hqq ht hc hidle
    simp [worker_begin, hidle, hqq, ht, hc]

/-- Witness for C5: unknown id `"x"` raises; the queued `"q"` cancels to
Cancelled with `true`; the running `"r"` is a `false` no-op; a worker
dequeuing the cancelled `"q"` just discards it. -/
theorem cancel_task_spec_witness :
    cancel_task exCancelState "x" =
      (exCancelState, .error (.keyError ("Task " ++ "x" ++ " not found"))) ∧
    (cancel_task exCancelState "q").2 = .ok true ∧
    lookupTask (cancel_task exCancelState "q").1.tasks "q" =
      some { exTaskQ with status := .cancelled } ∧
    cancel_task exCancelState "r" = (exCancelState, .ok false) ∧
    worker_begin exCancelledQueueState =
      { exCancelledQueueState with task_queue := [] } :=
  ⟨(cancel_task_spec exCancelState "x").1 rfl,
   ((cancel_task_spec exCancelState "q").2.1 exTaskQ rfl).mpr rfl,
   (cancel_task_spec exCancelState "q").2.2.1 exTaskQ rfl rfl,
   (cancel_task_spec exCancelState "r").2.2.2.1 exTaskR rfl (by decide),
   (cancel_task_spec exCancelledQueueState "q").2.2.2.2
     { exTaskQ with status := .cancelled } [] rfl rfl rfl (by decide)⟩

/-! ### Shutdown helpers shared by C6 and C10 -/

theorem lookupTask_cancel_ne (s : WState) (id' id : String) (hne : id ≠ id') :
    lookupTask (cancel_task s id').1.tasks id = lookupTask s.tasks id := by
  cases hl : lookupTask s.tasks id' with
  | none => simp [cancel_task, hl]
  | some u =>
      by_cases hq : u.status = .queued
      · simp only [cancel_task, hl, hq, if_true]
        exact lookupTask_setTask_ne _ hne
      · simp [cancel_task, hl, hq]

theorem shutdownComplete_applyOp (op : Op) (s : WState) (h : ShutdownComplete s) :
    ShutdownComplete (applyOp op s) := by
  obtain ⟨hflag, hidle, hflight⟩ := h
  cases op with
  | submit id c args =>
      by_cases hl : (lookupTask s.tasks id).isSome
      · simpa [applyOp, submit_task, hl] using
          (⟨hflag, hidle, hflight⟩ : ShutdownComplete s)
      · refine ⟨?_, ?_, ?_⟩ <;>
          simp [applyOp, submit_task, hl, hflag, hidle, hflight]
  | cancel id =>
      cases hl : lookupTask s.tasks id with
      | none => simpa [applyOp, cancel_task, hl] using
          (⟨hflag, hidle, hflight⟩ : ShutdownComplete s)
      | some t =>
          by_cases hq : t.status = .queued
          · refine ⟨?_, ?_, ?_⟩ <;> simp [applyOp, cancel_task, hl, hq, hflag, hidle, hflight]
          · simpa [applyOp, cancel_task, hl, hq] using
              (⟨hflag, hidle, hflight⟩ : ShutdownComplete s)
  | workerBegin =>
      have hb : worker_begin s = s := by simp [worker_begin, hidle]
      simpa [applyOp, hb] using (⟨hflag, hidle, hflight⟩ : ShutdownComplete s)
  | workerFinish fid =>
      have hb : worker_finish s fid = s := by simp [worker_finish, hflight]
      simpa [applyOp, hb] using (⟨hflag, hidle, hflight⟩ : ShutdownComplete s)
  | workerExit =>
      have hb : worker_exit s = s := by simp [worker_exit, hidle]
      simpa [applyOp, hb] using (⟨hflag, hidle, hflight⟩ : ShutdownComplete s)
  | shutdownSignal =>
      exact ⟨rfl, hidle, hflight⟩

theorem lookupTask_unchanged_after_shutdown (s : WState) (h : ShutdownComplete s)
    (id : String) (t : BackgroundTask) (ht : lookupTask s.tasks id = some t)
    (op : Op) (hop : op ≠ Op.cancel id) :
    lookupTask (applyOp op s).tasks id = some t := by
  obtain ⟨hflag, hidle, hflight⟩ := h
  cases op with
  | submit id' c args => exact lookupTask_submit s id' c args ht
  | cancel id' =>
      have hne : id ≠ id' := fun he => hop (by rw [he])
      calc lookupTask (applyOp (Op.cancel id') s).tasks id
          = lookupTask s.tasks id := lookupTask_cancel_ne s id' id hne
        _ = some t := ht
  | workerBegin =>
      have hb : worker_begin s = s := by simp [worker_begin, hidle]
      simpa [applyOp, hb] using ht
  | workerFinish fid =>
      have hb : worker_finish s fid = s := by simp [worker_finish, hflight]
      simpa [applyOp, hb] using ht
  | workerExit =>
      calc lookupTask (applyOp Op.workerExit s).tasks id
          = lookupTask s.tasks id := by rw [show (applyOp Op.workerExit s).tasks =
              (worker_exit s).tasks from rfl, tasks_worker_exit]
        _ = some t := ht
  | shutdownSignal => simpa [applyOp, shutdown_signal] using ht

/-! ### C6: quiescence after shutdown -/

/-- C6 counterexample: `exDead` is a reachable state in which
`shutdown(wait=True)` has returned (flag set, every worker exited) with
`"t"` still Queued — yet a later explicit `cancel_task` still changes its
status to Cancelled, so it is not true that no record's status ever
changes thereafter / that it stays Queued forever. -/
theorem shutdown_then_cancel_changes_status :
    Reachable exDead ∧ ShutdownComplete exDead ∧
    statusOf exDead "t" = some .queued ∧
    statusOf (applyOp (.cancel "t") exDead) "t" = some .cancelled := by
  refine ⟨?_, ⟨rfl, rfl, rfl⟩, rfl, rfl⟩
  exact Reachable.step _ Op.workerExit
    (Reachable.step _ Op.shutdownSignal
      (Reachable.step _ (Op.submit "t" dummyWork []) (Reachable.init 1)))

/-- C6 (amended): once `shutdown(wait=True)` has returned, no worker is
alive — every worker step is a no-op — and this dead configuration
persists under every operation; no record's status is ever changed again
except by an explicit `cancel_task` on that very id (queued tasks are not
failed or drained); and a `get_result` caller of any still-unresolved task
observes the stop flag and fails with the ShutdownBeforeCompletion
`RuntimeError`. -/
theorem shutdown_complete_quiescent (s : WState) (h : ShutdownComplete s) :
    worker_begin s = s ∧ (∀ id, worker_finish s id = s) ∧ worker_exit s = s ∧
    (∀ op, ShutdownComplete (applyOp op s)) ∧
    (∀ id t op, lookupTask s.tasks id = some t → op ≠ Op.cancel id →
      lookupTask (applyOp op s).tasks id = some t) ∧
    (∀ id t, lookupTask s.tasks id = some t →
      t.status = .queued ∨ t.status = .running →
      ∀ start now timeout, get_result_step s id start now timeout =
        .raise (.runtimeError ("Worker shutdown before task " ++ id ++ " completed"))) := by
  obtain ⟨hflag, hidle, hflight⟩ := h
  refine ⟨by simp [worker_begin, hidle],
          fun id => by simp [worker_finish, hflight],
          by simp [worker_exit, hidle],
          fun op => shutdownComplete_applyOp op s ⟨hflag, hidle, hflight⟩,
          fun id t op ht hop =>
            lookupTask_unchanged_after_shutdown s ⟨hflag, hidle, hflight⟩ id t ht op hop,
          ?_⟩
  intro id t ht hst start now timeout
  rcases hst with hq | hr
  · simp [get_result_step, ht, hq, hflag]
  · simp [get_result_step, ht, hr, hflag]

/-- Witness for C6 (amended): in the dead state `exDead` the worker does
nothing and `get_result` on the still-queued `"t"` fails with the shutdown
error. -/
theorem shutdown_complete_quiescent_witness :
    worker_begin exDead = exDead ∧
    get_result_step exDead "t" 0 0 none =
      .raise (.runtimeError ("Worker shutdown before task " ++ "t" ++ " completed")) := by
  have h := shutdown_complete_quiescent exDead ⟨rfl, rfl, rfl⟩
  exact ⟨h.1, h.2.2.2.2.2 "t" exQueuedTask rfl (Or.inl rfl) 0 0 none⟩

/-! ### C7: result-retrieval timeout -/

theorem get_result_run_times_out (s : WState) (id : String) (t : BackgroundTask)
    (tmo : Nat)
    (ht : lookupTask s.tasks id = some t)
    (hst : t.status = .queued ∨ t.status = .running)
    (hflag : s.shutdown_flag = false) :
    ∀ fuel i, 1 ≤ fuel → tmo + 2 ≤ i + fuel →
      get_result_run (fun _ => s) id (some tmo) i fuel =
        some (.raise (.timeoutError
          ("Task " ++ id ++ " did not complete within " ++ toString tmo ++ "s"))) := by
  intro fuel
  induction fuel with
  | zero => intro i h1 _; exact absurd h1 (by omega)
  | succ n ih =>
      intro i _ h2
      by_cases hgt : i > tmo
      · have hstep : get_result_step s id 0 i (some tmo) =
            .raise (.timeoutError
              ("Task " ++ id ++ " did not complete within " ++ toString tmo ++ "s")) := by
          rcases hst with hq | hr
          · simp [get_result_step, ht, hq, hflag, hgt]
          · simp [get_result_step, ht, hr, hflag, hgt]
        simp [get_result_run, hstep]
      · have hstep : get_result_step s id 0 i (some tmo) = .retry := by
          rcases hst with hq | hr
          · simp [get_result_step, ht, hq, hflag, hgt]
          · simp [get_result_step, ht, hr, hflag, hgt]
        rw [get_result_run, hstep]
        exact ih (i + 1) (by omega) (by omega)

/-- C7: a `get_result(id, timeout=t)` iteration on a task that is still
non-terminal once the deadline has elapsed raises the Timeout error; the
call performs no write, so the record stays queryable with its status
untouched; and the whole polling loop against an unchanging non-terminal
record reaches that Timeout outcome. -/
theorem get_result_timeout (s : WState) (id : String) (t : BackgroundTask)
    (start now tmo : Nat)
    (ht : lookupTask s.tasks id = some t)
    (hst : t.status = .queued ∨ t.status = .running)
    (hflag : s.shutdown_flag = false)
    (helapsed : now - start > tmo) :
    get_result_step s id start now (some tmo) =
      .raise (.timeoutError
        ("Task " ++ id ++ " did not complete within " ++ toString tmo ++ "s")) ∧
    get_status s id = .ok t.status ∧
    get_result_run (fun _ => s) id (some tmo) 0 (tmo + 2) =
      some (.raise (.timeoutError
        ("Task " ++ id ++ " did not complete within " ++ toString tmo ++ "s"))) := by
  refine ⟨?_, ?_, ?_⟩
  · rcases hst with hq | hr
    · simp [get_result_step, ht, hq, hflag, helapsed]
    · simp [get_result_step, ht, hr, hflag, helapsed]
  · simp [get_status, ht]
  · exact get_result_run_times_out s id t tmo ht hst hflag (tmo + 2) 0
      (by omega) (by omega)

/-- Witness for C7: in `exSubmitted` (task `"t"` still Queued, no
shutdown), waiting with `timeout = 3` until `now = 5` raises the Timeout
error and leaves `"t"` queryable as Queued. -/
theorem get_result_timeout_witness :
    get_result_step exSubmitted "t" 0 5 (some 3) =
      .raise (.timeoutError
        ("Task " ++ "t" ++ " did not complete within " ++ toString 3 ++ "s")) ∧
    get_status exSubmitted "t" = .ok TaskStatus.queued ∧
    get_result_run (fun _ => exSubmitted) "t" (some 3) 0 5 =
      some (.raise (.timeoutError
        ("Task " ++ "t" ++ " did not complete within " ++ toString 3 ++ "s"))) :=
  get_result_timeout exSubmitted "t" exQueuedTask 0 5 3 rfl (Or.inl rfl) rfl
    (by decide)

/-! ### C8: list_tasks -/

/-- C8 (code bug): `list_tasks` holds the non-reentrant registry lock for
the whole comprehension while each inner `get_task_info` call re-acquires
that same lock, so the call deadlocks (never returns a list) as soon as
the registry holds even one task; only an empty registry returns the empty
snapshot. -/
theorem list_tasks_deadlocks_when_nonempty :
    list_tasks exSubmitted = none ∧
    exSubmitted.tasks.length = 1 ∧
    list_tasks (BackgroundWorker.init 1) = some [] :=
  ⟨rfl, rfl, rfl⟩

/-! ### C9: the global worker -/

/-- C9: `get_global_worker` is idempotent — the first call constructs a
`BackgroundWorker` with `max_workers = 3` and stores it, every later call
returns the stored instance unchanged — and `delegate_to_background`
always submits to exactly the instance `get_global_worker` yields, storing
the updated instance back in the global cell. -/
theorem global_worker_idempotent :
    get_global_worker none = (some (BackgroundWorker.init 3), BackgroundWorker.init 3) ∧
    (BackgroundWorker.init 3).max_workers = 3 ∧
    (∀ w, get_global_worker (some w) = (some w, w)) ∧
    (∀ g, get_global_worker (get_global_worker g).1 =
      ((get_global_worker g).1, (get_global_worker g).2)) ∧
    (∀ g id c args, delegate_to_background g id c args =
      (some (submit_task (get_global_worker g).2 id c args).1,
       (submit_task (get_global_worker g).2 id c args).2)) := by
  refine ⟨rfl, rfl, fun w => rfl, fun g => ?_, fun g id c args => rfl⟩
  cases g <;> rfl

/-! ### C10: submission after shutdown -/

/-- C10 counterexample: `"late"` submitted to the dead engine is Queued,
and no worker will ever dequeue it — but it does not stay Queued forever
as the claim states: an explicit `cancel_task` still moves it to
Cancelled. -/
theorem late_submit_not_queued_forever :
    Reachable exDeadLate ∧ ShutdownComplete exDeadLate ∧
    statusOf exDeadLate "late" = some .queued ∧
    statusOf (applyOp (.cancel "late") exDeadLate) "late" = some .cancelled := by
  refine ⟨?_, ⟨rfl, rfl, rfl⟩, rfl, rfl⟩
  exact Reachable.step _ (Op.submit "late" dummyWork [])
    (Reachable.step _ Op.workerExit
      (Reachable.step _ Op.shutdownSignal
        (Reachable.step _ (Op.submit "t" dummyWork []) (Reachable.init 1))))

/-- C10 (amended): `submit_task` performs no shutdown check — a fresh id
submitted after the stop flag is set still succeeds, returning the id and
registering a Queued record on the queue; once every worker has exited the
dead configuration persists, no worker step dequeues the record, and its
status remains Queued under every operation except an explicit
`cancel_task` of that id. -/
theorem submit_after_shutdown_succeeds (s : WState) (id : String) (c : Callable)
    (args : List Val)
    (hfresh : lookupTask s.tasks id = none)
    (hflag : s.shutdown_flag = true) :
    (submit_task s id c args).2 = .ok id ∧
    statusOf (submit_task s id c args).1 id = some .queued ∧
    (submit_task s id c args).1.task_queue = s.task_queue ++ [id] ∧
    (submit_task s id c args).1.shutdown_flag = true ∧
    (ShutdownComplete s → worker_begin (submit_task s id c args).1 =
      (submit_task s id c args).1) ∧
    (∀ op, op ≠ Op.cancel id → ShutdownComplete s →
      statusOf (applyOp op (submit_task s id c args).1) id = some .queued) := by
  have hlook : lookupTask (submit_task s id c args).1.tasks id =
      some { task_id := id, callable := c, args := args, submitted_at := s.clock } := by
    simp only [submit_task, hfresh, Option.isSome_none, Bool.false_eq_true, if_false]
    rw [lookupTask_append_of_none _ hfresh]
    simp [lookupTask]
  refine ⟨?_, ?_, ?_, ?_, ?_, ?_⟩
  · simp [submit_task, hfresh]
  · rw [statusOf, hlook]; rfl
  · simp [submit_task, hfresh]
  · simp [submit_task, hfresh, hflag]
  · intro hsc
    have hidle : (submit_task s id c args).1.idleWorkers = 0 := by
      simp [submit_task, hfresh, hsc.2.1]
    simp [worker_begin, hidle]
  · intro op hop hsc
    have hsc' : ShutdownComplete (submit_task s id c args).1 :=
      shutdownComplete_applyOp (Op.submit id c args) s hsc
    have h2 := lookupTask_unchanged_after_shutdown (submit_task s id c args).1 hsc'
      id _ hlook op hop
    rw [statusOf, h2]; rfl

/-- Witness for C10 (amended): submitting `"late"` to the dead engine
succeeds with a Queued record, and a worker step leaves it Queued. -/
theorem submit_after_shutdown_succeeds_witness :
    (submit_task exDead "late" dummyWork []).2 = .ok "late" ∧
    statusOf (submit_task exDead "late" dummyWork []).1 "late" = some .queued ∧
    statusOf (applyOp Op.workerBegin (submit_task exDead "late" dummyWork []).1)
      "late" = some .queued := by
  have h := submit_after_shutdown_succeeds exDead "late" dummyWork [] rfl rfl
  exact ⟨h.1, h.2.1,
    h.2.2.2.2.2 Op.workerBegin (fun he => Op.noConfusion he) ⟨rfl, rfl, rfl⟩⟩
